import Mathlib

/-!
Verification of the libcore I/O redirection / syscall shim layer.

This file gives a shallow embedding of the dispatch facade, the handler
registry, the buffered character stream and the C runtime hooks found in
src/libcore/platform/syscall.hpp and src/libcore/platform/newlib.hpp, and
proves the behavioural properties stated for them.

Modelling conventions:
- bytes, characters and stream ids (FILE pointers and file descriptors)
  are modelled as Int; a buffer together with its length argument is
  modelled as the List Int of exactly the bytes passed;
- a registered handler is modelled as a pure function: a write handler
  maps (file, buffer) to its returned count, a read handler maps
  (file, destination buffer) to (returned count, new destination buffer),
  an sbrk handler maps an increment to an optional address (none models a
  null pointer);
- the mutable static state of the managers is threaded explicitly, and
  every operation additionally returns the list of observable events
  (handler invocations and dispatch-level Write calls) it performed.
-/

namespace LibCore

/-- Model of SysCall::write_function: (file, buffer) to returned count. -/
abbrev write_function : Type := Int → List Int → Int

/-- Model of SysCall::read_function: (file, destination buffer) to
(returned count, destination buffer contents after the call). -/
abbrev read_function : Type := Int → List Int → Int × List Int

/-- Model of Newlib::sbrk_function: increment to optional address;
none models a returned null pointer. -/
abbrev sbrk_function : Type := Int → Option Int

/-- Observable events of a run: a dispatch-level Write call, the
invocation of one registered write handler (recording its discarded
return value), or the invocation of one registered read handler. -/
inductive Event : Type where
  | dispatchWrite (file : Int) (buf : List Int)
  | writerCall (w : write_function) (file : Int) (buf : List Int) (ret : Int)
  | readerCall (r : read_function) (file : Int) (dest : List Int) (ret : Int)

/-- Whether an event is a dispatch-level Write call. -/
def Event.isDispatchWrite : Event → Bool
  | Event.dispatchWrite _ _ => true
  | _ => false

/-- Number of dispatch-level Write calls recorded in a trace. -/
def countDispatchWrite (tr : List Event) : Nat :=
  (tr.filter Event.isDispatchWrite).length

/-- Events of the write fan-out loop: every writer in the list is called,
in order, with the same file and the full buffer; its return value is
recorded in the event and otherwise discarded. Mirrors the loop bodies of
SysCallManager::Write (syscall.hpp:160-163) and of the _write hook
(newlib.hpp:299-302). -/
def writeEvents (file : Int) (buf : List Int) : List write_function → List Event
  | [] => []
  | w :: ws => Event.writerCall w file buf (w file buf) :: writeEvents file buf ws

/-- The first-success read loop of SysCallManager::Read
(syscall.hpp:169-178) and of the _read hook (newlib.hpp:309-318):
bytes_read starts at acc (0 at the top-level call), each reader is called
in order with the current destination buffer, the loop stops at the first
positive returned count, and the value of bytes_read after the loop is
returned together with the final destination buffer and the trace of
reader invocations. -/
def readRun (file : Int) : List read_function → List Int → Int → Int × List Int × List Event
  | [], dest, acc => (acc, dest, [])
  | r :: rs, dest, acc =>
    let call := r file dest
    if 0 < call.1 then
      (call.1, call.2, [Event.readerCall r file dest call.1])
    else
      let rest := readRun file rs call.2 call.1
      (rest.1, rest.2.1, Event.readerCall r file dest call.1 :: rest.2.2)

/-- Destination buffer contents after running a list of readers in order,
each receiving the buffer left by the previous one. -/
def chainDest (file : Int) (rs : List read_function) (dest : List Int) : List Int :=
  rs.foldl (fun d r => (r file d).2) dest

/-- Reader-invocation events of running a whole list of readers in order
along the destination-buffer chain. -/
def readEvents (file : Int) : List read_function → List Int → List Event
  | [], _ => []
  | r :: rs, dest =>
      Event.readerCall r file dest (r file dest).1 :: readEvents file rs (r file dest).2

/-- The readers of the list, run in order along the destination-buffer
chain starting from dest, all return count 0 (the contract of a read
handler that has no data available). -/
inductive AllZeroChain (file : Int) : List read_function → List Int → Prop where
  | nil (dest : List Int) : AllZeroChain file [] dest
  | cons (r : read_function) (rs : List read_function) (dest : List Int) :
      (r file dest).1 = 0 → AllZeroChain file rs (r file dest).2 →
      AllZeroChain file (r :: rs) dest

/-- Outcome of registering a handler. allocationExhausted models the
std::bad_alloc thrown when the backing arena is out of space. -/
inductive AllocResult : Type where
  | ok
  | allocationExhausted
deriving DecidableEq

/-- Model of StaticSysCall (syscall.hpp:66-106): the two handler
sequences and the compile-time callback_count that sizes the backing
StaticMemoryResource (kReserveBytes = kBytesPerCallback * callback_count,
one arena shared by both sequences). -/
structure StaticSysCall where
  callback_count : Nat
  write : List write_function
  read : List read_function

/-- Modelled from the spec: StaticMemoryResource (memory_resource.hpp) is
not under src. Per the spec, the arena is a fixed region of
callback_count handler slots shared by the handler sequences, an append
carves one slot, and registration beyond capacity raises
AllocationExhausted (std::bad_alloc) leaving the registrations unchanged.
AddWriter (syscall.hpp:91-94) appends to the write sequence under that
arena bound. -/
def StaticSysCall.AddWriter (s : StaticSysCall) (f : write_function) :
    StaticSysCall × AllocResult :=
  if s.write.length + s.read.length < s.callback_count then
    ({ s with write := s.write ++ [f] }, AllocResult.ok)
  else
    (s, AllocResult.allocationExhausted)

/-- Modelled from the spec: same arena bound as StaticSysCall.AddWriter.
AddReader (syscall.hpp:97-100) appends to the read sequence. -/
def StaticSysCall.AddReader (s : StaticSysCall) (f : read_function) :
    StaticSysCall × AllocResult :=
  if s.write.length + s.read.length < s.callback_count then
    ({ s with read := s.read ++ [f] }, AllocResult.ok)
  else
    (s, AllocResult.allocationExhausted)

/-- Model of SysCallManager::default_newlib (syscall.hpp:212): a
StaticSysCall with callback_count 2 and no registered handlers. -/
def default_newlib : StaticSysCall :=
  { callback_count := 2, write := [], read := [] }

/-- Mutable static state of SysCallManager (syscall.hpp:212-215): the
installed SysCall registry (platform_newlib, pointing at default_newlib
until a platform installs its own), the buffered-stream byte buffer, and
the capacity BUFSIZ of the StaticMemoryResource backing that buffer. -/
structure SysCallManagerState where
  platform_newlib : StaticSysCall
  buffer : List Int
  bufCapacity : Nat

/-- Initial state: platform_newlib = address of default_newlib, empty
buffer, buffer arena of the given capacity (BUFSIZ). -/
def SysCallManagerState.init (bufCap : Nat) : SysCallManagerState :=
  { platform_newlib := default_newlib, buffer := [], bufCapacity := bufCap }

/-- Result of a manager operation: returned int, state after the call,
trace of events performed. -/
structure RunResult (σ : Type) where
  ret : Int
  state : σ
  trace : List Event

/-- Result of a read-style operation, additionally carrying the
destination buffer contents after the call. -/
structure ReadResult (σ : Type) where
  ret : Int
  dest : List Int
  state : σ
  trace : List Event

namespace SysCallManager

/-- SysCallManager::Set (syscall.hpp:118-121): install a registry. -/
def Set (st : SysCallManagerState) (s : StaticSysCall) : SysCallManagerState :=
  { st with platform_newlib := s }

/-- SysCallManager::Write (syscall.hpp:158-165): call every writer of the
installed registry, in order, with the full buffer, discarding their
return values, and return length. -/
def Write (st : SysCallManagerState) (file : Int) (buf : List Int) :
    RunResult SysCallManagerState :=
  { ret := (buf.length : Int)
  , state := st
  , trace := Event.dispatchWrite file buf :: writeEvents file buf st.platform_newlib.write }

/-- SysCallManager::Read (syscall.hpp:167-179): run the first-success
read loop over the installed registry with bytes_read starting at 0. -/
def Read (st : SysCallManagerState) (file : Int) (dest : List Int) :
    ReadResult SysCallManagerState :=
  let r := readRun file st.platform_newlib.read dest 0
  { ret := r.1, dest := r.2.1, state := st, trace := r.2.2 }

/-- SysCallManager::Flush (syscall.hpp:181-186): Write the buffered bytes
(unconditionally, even when the buffer is empty), clear the buffer,
return 0. -/
def Flush (st : SysCallManagerState) (file : Int) : RunResult SysCallManagerState :=
  let w := Write st file st.buffer
  { ret := 0, state := { w.state with buffer := [] }, trace := w.trace }

/-- SysCallManager::PutChar (syscall.hpp:188-203): flush first when the
buffer is at the arena capacity, append the byte, flush when the byte is
a newline (10), return 0. -/
def PutChar (st : SysCallManagerState) (c : Int) (file : Int) :
    RunResult SysCallManagerState :=
  let step1 :=
    if st.buffer.length = st.bufCapacity then
      let f := Flush st file
      (f.state, f.trace)
    else
      (st, ([] : List Event))
  let st2 := { step1.1 with buffer := step1.1.buffer ++ [c] }
  if c = 10 then
    let f := Flush st2 file
    { ret := 0, state := f.state, trace := step1.2 ++ f.trace }
  else
    { ret := 0, state := st2, trace := step1.2 }

/-- SysCallManager::GetChar (syscall.hpp:205-210): char byte = 0, Read
one byte into it, return the byte (not the read count). -/
def GetChar (st : SysCallManagerState) (file : Int) : RunResult SysCallManagerState :=
  let r := Read st file [0]
  { ret := r.dest.headD 0, state := r.state, trace := r.trace }

end SysCallManager

/-- Iterated PutChar over a list of characters, accumulating the traces. -/
def putString (st : SysCallManagerState) (file : Int) :
    List Int → SysCallManagerState × List Event
  | [] => (st, [])
  | c :: cs =>
    let p := SysCallManager.PutChar st c file
    let rest := putString p.state file cs
    (rest.1, p.trace ++ rest.2)

/-- One buffered-stream operation: PutChar of a byte, or an explicit
Flush. -/
inductive StreamOp : Type where
  | put (c : Int)
  | flush

/-- State after applying one buffered-stream operation. -/
def applyOp (st : SysCallManagerState) (file : Int) : StreamOp → SysCallManagerState
  | StreamOp.put c => (SysCallManager.PutChar st c file).state
  | StreamOp.flush => (SysCallManager.Flush st file).state

/-- States after each operation of a sequence, in order. -/
def runStates (st : SysCallManagerState) (file : Int) : List StreamOp → List SysCallManagerState
  | [] => []
  | op :: ops =>
    let st1 := applyOp st file op
    st1 :: runStates st1 file ops

/-- Model of the Newlib registry interface (newlib.hpp:22-52) as the
three handler sequences its getters expose. -/
structure Newlib where
  sbrk : List sbrk_function
  write : List write_function
  read : List read_function

/-- Model of NewlibManager::DefaultNewlib (newlib.hpp:115-160): one dummy
sbrk handler returning null, one dummy writer discarding its input and
returning 0, one dummy reader touching nothing and returning 0. -/
def DefaultNewlib : Newlib :=
  { sbrk := [fun _ => none]
  , write := [fun _ _ => 0]
  , read := [fun _ dest => (0, dest)] }

/-- Mutable static state reachable from the newlib hooks: the installed
Newlib registry (NewlibManager::platform_newlib, newlib.hpp:191, pointing
at DefaultNewlib until a platform installs its own) and the
linker-provided heap region cursor and end used by the _sbrk fallback. -/
structure NewlibManagerState where
  platform_newlib : Newlib
  heap_position : Int
  heap_end : Int

/-- Initial state: platform_newlib = address of default_newlib
(newlib.hpp:162,191), with the given heap region. -/
def NewlibManagerState.init (hp he : Int) : NewlibManagerState :=
  { platform_newlib := DefaultNewlib, heap_position := hp, heap_end := he }

/-- NewlibManager::Set (newlib.hpp:171-174): install a registry. -/
def NewlibManager.Set (st : NewlibManagerState) (n : Newlib) : NewlibManagerState :=
  { st with platform_newlib := n }

/-- The _write hook (newlib.hpp:297-304): call every writer of the
installed registry, in order, with the full buffer, discarding their
return values, and return length. -/
def newlibWrite (st : NewlibManagerState) (file : Int) (buf : List Int) :
    RunResult NewlibManagerState :=
  { ret := (buf.length : Int)
  , state := st
  , trace := Event.dispatchWrite file buf :: writeEvents file buf st.platform_newlib.write }

/-- The _read hook (newlib.hpp:307-319): the first-success read loop over
the installed registry with bytes_read starting at 0. -/
def newlibRead (st : NewlibManagerState) (file : Int) (dest : List Int) :
    ReadResult NewlibManagerState :=
  let r := readRun file st.platform_newlib.read dest 0
  { ret := r.1, dest := r.2.1, state := st, trace := r.2.2 }

/-- The allocator loop of _sbrk (newlib.hpp:273-280): call the registered
heap allocators in order, stopping at the first non-null result. -/
def sbrkLoop (inc : Int) : List sbrk_function → Option Int
  | [] => none
  | a :: rest =>
    match a inc with
    | some p => some p
    | none => sbrkLoop inc rest

/-- The _sbrk hook (newlib.hpp:270-294): try the registered allocators in
order; when all return null, fall back to the linker heap region, bumping
heap_position when heap_position + increment stays within heap_end;
return null when the fallback cannot satisfy the request either. -/
def newlibSbrk (st : NewlibManagerState) (increment : Int) :
    Option Int × NewlibManagerState :=
  match sbrkLoop increment st.platform_newlib.sbrk with
  | some p => (some p, st)
  | none =>
    if st.heap_position + increment ≤ st.heap_end then
      (some st.heap_position, { st with heap_position := st.heap_position + increment })
    else
      (none, st)

/-- Modelled from the spec: the pending uncaught fault inspected by
HandleExceptionPointer. error_handling.hpp (sjsu::Exception, the typed
domain fault) is not under src; per the spec the handler distinguishes a
typed domain fault with a structured message, a generic runtime fault
(std::exception) with a textual description, and an unknown fault, so the
three are modelled as distinct constructors. -/
inductive Fault : Type where
  | stdException (msg : List Int)
  | sjsuException (msg : List Int)
  | unknown

/-- Reporting events emitted by _exit and the uncaught-fault handler. -/
inductive ExitEvent : Type where
  | exitCodeNormal (code : Int)
  | exitCodeAbnormal (code : Int)
  | uncaughtHeader
  | faultGeneric (msg : List Int)
  | faultTyped (msg : List Int)
  | faultUnknown
deriving DecidableEq

/-- SysCallManager::HandleExceptionPointer (syscall.hpp:133-155): print
the uncaught-exception header, then rethrow and classify the pending
fault, if any, reporting each kind distinctly. -/
def HandleExceptionPointer : Option Fault → List ExitEvent
  | none => [ExitEvent.uncaughtHeader]
  | some (Fault.stdException m) => [ExitEvent.uncaughtHeader, ExitEvent.faultGeneric m]
  | some (Fault.sjsuException m) => [ExitEvent.uncaughtHeader, ExitEvent.faultTyped m]
  | some Fault.unknown => [ExitEvent.uncaughtHeader, ExitEvent.faultUnknown]

/-- Reporting events of the _exit hook (syscall.hpp:226-248,
newlib.hpp:322-344): the exit code framed as normal (green) when
return_code >= 0 and abnormal (red) otherwise, followed by the
uncaught-fault report for the pending exception. -/
def exitEvents (return_code : Int) (pending : Option Fault) : List ExitEvent :=
  (if 0 ≤ return_code then [ExitEvent.exitCodeNormal return_code]
   else [ExitEvent.exitCodeAbnormal return_code])
  ++ HandleExceptionPointer pending

/-- Control locations of the _exit hook body: report the exit code,
report the pending fault, spin in the idle loop. The location returned
models falling off the end of the function, which the body has no path
to. -/
inductive ExitPC : Type where
  | reportCode
  | reportFault
  | idleLoop
  | returned
deriving DecidableEq

/-- One control step of the _exit hook body (syscall.hpp:226-248): the
code report is followed by the fault report, the fault report by the
idle loop while (1) continue, and the idle loop by itself. -/
def exitStep : ExitPC → ExitPC
  | ExitPC.reportCode => ExitPC.reportFault
  | ExitPC.reportFault => ExitPC.idleLoop
  | ExitPC.idleLoop => ExitPC.idleLoop
  | ExitPC.returned => ExitPC.returned

/-- A concrete writer handler that discards its input, for concrete
instantiations. -/
def sinkWriter : write_function := fun _ _ => 0

/-- A concrete registry holding one writer. -/
def demoRegistry : StaticSysCall :=
  { callback_count := 2, write := [sinkWriter], read := [] }

/-- A concrete manager state with one installed writer, an empty buffer
and the given buffer capacity. -/
def demoStreamState (cap : Nat) : SysCallManagerState :=
  { platform_newlib := demoRegistry, buffer := [], bufCapacity := cap }

/-- A concrete registry whose single handler slot is already taken. -/
def fullRegistry : StaticSysCall :=
  { callback_count := 1, write := [sinkWriter], read := [] }

/-- A concrete reader that reports no data and leaves the buffer alone. -/
def zeroReader : read_function := fun _ dest => (0, dest)

/-- A concrete reader that stores the byte 65 and reports one byte. -/
def letterAReader : read_function := fun _ dest => (1, 65 :: dest.drop 1)

/-- A concrete manager state with two installed readers, the first
reporting no data. -/
def readDemoState : SysCallManagerState :=
  { platform_newlib := { callback_count := 2, write := [], read := [zeroReader, letterAReader] }
  , buffer := []
  , bufCapacity := 16 }

/-- A concrete manager state whose single reader always reports no
data. -/
def zeroReadState : SysCallManagerState :=
  { platform_newlib := { callback_count := 1, write := [], read := [zeroReader] }
  , buffer := []
  , bufCapacity := 16 }

/-- A concrete heap allocator that always reports exhaustion. -/
def nullAllocator : sbrk_function := fun _ => none

/-- A concrete heap allocator that always returns the address 4096. -/
def fixedAllocator : sbrk_function := fun _ => some 4096

/-- A concrete newlib state whose second registered allocator succeeds. -/
def sbrkDemoState : NewlibManagerState :=
  { platform_newlib := { sbrk := [nullAllocator, fixedAllocator], write := [], read := [] }
  , heap_position := 0
  , heap_end := 0 }

/-- A concrete newlib state where no allocator and no heap space can
satisfy a request. -/
def sbrkEmptyState : NewlibManagerState :=
  { platform_newlib := { sbrk := [nullAllocator], write := [], read := [] }
  , heap_position := 100
  , heap_end := 50 }

/-! Helper lemmas shared by several developments. -/

lemma writeEvents_eq_map (file : Int) (buf : List Int) (ws : List write_function) :
    writeEvents file buf ws = ws.map (fun w => Event.writerCall w file buf (w file buf)) := by
  induction ws with
  | nil => rfl
  | cons w ws ih => simp [writeEvents, ih]

lemma countDispatchWrite_writeEvents (file : Int) (buf : List Int)
    (ws : List write_function) :
    countDispatchWrite (writeEvents file buf ws) = 0 := by
  induction ws with
  | nil => rfl
  | cons w ws ih =>
      simpa [writeEvents, countDispatchWrite, Event.isDispatchWrite] using ih

lemma countDispatchWrite_cons_dispatch (file : Int) (buf : List Int) (tr : List Event) :
    countDispatchWrite (Event.dispatchWrite file buf :: tr) = countDispatchWrite tr + 1 := by
  simp [countDispatchWrite, Event.isDispatchWrite]

lemma chainDest_cons (file : Int) (r : read_function) (rs : List read_function)
    (dest : List Int) :
    chainDest file (r :: rs) dest = chainDest file rs (r file dest).2 := rfl

lemma readRun_allZeroChain (file : Int) {rs : List read_function} {dest : List Int}
    (h : AllZeroChain file rs dest) :
    readRun file rs dest 0 = (0, chainDest file rs dest, readEvents file rs dest) := by
  induction h with
  | nil d => rfl
  | cons r rs d h0 hch ih =>
      simp only [readRun, h0, chainDest_cons, readEvents]
      simp [h0, ih]

lemma readRun_firstSuccess (file : Int) {rs1 : List read_function} {dest : List Int}
    (h : AllZeroChain file rs1 dest) :
    ∀ (r : read_function) (rs2 : List read_function),
      0 < (r file (chainDest file rs1 dest)).1 →
      readRun file (rs1 ++ r :: rs2) dest 0 =
        ((r file (chainDest file rs1 dest)).1,
         (r file (chainDest file rs1 dest)).2,
         readEvents file rs1 dest ++
           [Event.readerCall r file (chainDest file rs1 dest)
             (r file (chainDest file rs1 dest)).1]) := by
  induction h with
  | nil d =>
      intro r rs2 hpos
      simp [readRun, chainDest, readEvents] at hpos ⊢
      simp [hpos]
  | cons r1 rs1 d h0 hch ih =>
      intro r rs2 hpos
      rw [chainDest_cons] at hpos
      simp only [List.cons_append, readRun, h0, readEvents, chainDest_cons]
      simp [h0, ih r rs2 hpos]

lemma Flush_state_buffer (st : SysCallManagerState) (file : Int) :
    (SysCallManager.Flush st file).state.buffer = [] := rfl

lemma Flush_state_platform (st : SysCallManagerState) (file : Int) :
    (SysCallManager.Flush st file).state.platform_newlib = st.platform_newlib := rfl

lemma Flush_state_bufCapacity (st : SysCallManagerState) (file : Int) :
    (SysCallManager.Flush st file).state.bufCapacity = st.bufCapacity := rfl

lemma PutChar_state_bufCapacity (st : SysCallManagerState) (c file : Int) :
    (SysCallManager.PutChar st c file).state.bufCapacity = st.bufCapacity := by
  simp only [SysCallManager.PutChar, SysCallManager.Flush, SysCallManager.Write]
  split_ifs <;> rfl

lemma PutChar_state_platform (st : SysCallManagerState) (c file : Int) :
    (SysCallManager.PutChar st c file).state.platform_newlib = st.platform_newlib := by
  simp only [SysCallManager.PutChar, SysCallManager.Flush, SysCallManager.Write]
  split_ifs <;> rfl

lemma PutChar_len_le (st : SysCallManagerState) (c file : Int)
    (hcap : 1 ≤ st.bufCapacity) (hlen : st.buffer.length ≤ st.bufCapacity) :
    (SysCallManager.PutChar st c file).state.buffer.length ≤ st.bufCapacity := by
  simp only [SysCallManager.PutChar, SysCallManager.Flush, SysCallManager.Write]
  split_ifs with h1 h2 h3 <;> simp <;> omega

lemma PutChar_newline_len (st : SysCallManagerState) (file : Int) :
    (SysCallManager.PutChar st 10 file).state.buffer.length = 0 := by
  simp only [SysCallManager.PutChar, SysCallManager.Flush, SysCallManager.Write]
  split_ifs <;> simp_all

lemma putString_no_flush (file : Int) :
    ∀ (s : List Int) (st : SysCallManagerState),
      st.buffer.length + s.length ≤ st.bufCapacity →
      (∀ c ∈ s, c ≠ 10) →
      putString st file s = ({ st with buffer := st.buffer ++ s }, []) := by
  intro s
  induction s with
  | nil => intro st _ _; simp [putString]
  | cons c cs ih =>
      intro st hlen hnl
      have hne : ¬ st.buffer.length = st.bufCapacity := by
        simp only [List.length_cons] at hlen; omega
      have hc : ¬ c = 10 := hnl c (List.mem_cons_self c cs)
      have hrec := ih { st with buffer := st.buffer ++ [c] }
        (by simp only [List.length_cons, List.length_append, List.length_singleton,
              List.length_nil] at hlen ⊢; omega)
        (fun x hx => hnl x (List.mem_cons_of_mem c hx))
      simp only [putString, SysCallManager.PutChar, hne, if_false, hc, hrec]
      simp

lemma applyOp_bufCapacity (st : SysCallManagerState) (file : Int) (op : StreamOp) :
    (applyOp st file op).bufCapacity = st.bufCapacity := by
  cases op with
  | put c => exact PutChar_state_bufCapacity st c file
  | flush => exact Flush_state_bufCapacity st file

lemma applyOp_len_le (st : SysCallManagerState) (file : Int) (op : StreamOp)
    (hcap : 1 ≤ st.bufCapacity) (hlen : st.buffer.length ≤ st.bufCapacity) :
    (applyOp st file op).buffer.length ≤ st.bufCapacity := by
  cases op with
  | put c => exact PutChar_len_le st c file hcap hlen
  | flush => simp [applyOp, Flush_state_buffer]

lemma runStates_inv (file : Int) :
    ∀ (ops : List StreamOp) (st : SysCallManagerState),
      1 ≤ st.bufCapacity → st.buffer.length ≤ st.bufCapacity →
      ∀ st' ∈ runStates st file ops, st'.buffer.length ≤ st.bufCapacity := by
  intro ops
  induction ops with
  | nil => intro st _ _ st' hmem; simp [runStates] at hmem
  | cons op ops ih =>
      intro st hcap hlen st' hmem
      have h1cap : (applyOp st file op).bufCapacity = st.bufCapacity :=
        applyOp_bufCapacity st file op
      have h1len : (applyOp st file op).buffer.length ≤ st.bufCapacity :=
        applyOp_len_le st file op hcap hlen
      simp only [runStates, List.mem_cons] at hmem
      rcases hmem with h | h
      · exact h ▸ h1len
      · have := ih (applyOp st file op) (h1cap ▸ hcap) (h1cap ▸ h1len) st' h
        exact h1cap ▸ this

lemma sbrkLoop_eq_none (inc : Int) :
    ∀ {allocs : List sbrk_function}, (∀ a ∈ allocs, a inc = none) →
      sbrkLoop inc allocs = none := by
  intro allocs
  induction allocs with
  | nil => intro _; rfl
  | cons a rest ih =>
      intro h
      have ha : a inc = none := h a (List.mem_cons_self a rest)
      simp [sbrkLoop, ha, ih (fun b hb => h b (List.mem_cons_of_mem a hb))]

lemma sbrkLoop_firstSuccess (inc : Int) :
    ∀ (as1 : List sbrk_function) (a : sbrk_function) (as2 : List sbrk_function) (p : Int),
      (∀ b ∈ as1, b inc = none) → a inc = some p →
      sbrkLoop inc (as1 ++ a :: as2) = some p := by
  intro as1
  induction as1 with
  | nil => intro a as2 p _ ha; simp [sbrkLoop, ha]
  | cons b rest ih =>
      intro a as2 p h ha
      have hb : b inc = none := h b (List.mem_cons_self b rest)
      simp [sbrkLoop, hb, ih a as2 p (fun x hx => h x (List.mem_cons_of_mem b hx)) ha]

lemma exitStep_ne_returned (s : ExitPC) (h : s ≠ ExitPC.returned) :
    exitStep s ≠ ExitPC.returned := by
  cases s <;> simp [exitStep] at h ⊢

lemma iterate_exitStep_ne_returned :
    ∀ (n : Nat) (s : ExitPC), s ≠ ExitPC.returned → exitStep^[n] s ≠ ExitPC.returned := by
  intro n
  induction n with
  | zero => intro s h; simpa using h
  | succ n ih =>
      intro s h
      rw [Function.iterate_succ_apply]
      exact ih (exitStep s) (exitStep_ne_returned s h)

/-! Claim theorems. -/

/-- C1: for every registered writer sequence W and every input buffer B,
Write invokes every writer in W exactly once, in registration order, each
with the full contents of B, and returns the length of B; the return
values of the individual writers are recorded in the trace and discarded,
never influencing the returned count. Covers both SysCallManager::Write
and the newlib _write hook. -/
theorem write_fanout_returns_length (st : SysCallManagerState)
    (nst : NewlibManagerState) (file nfile : Int) (buf nbuf : List Int) :
    (SysCallManager.Write st file buf).ret = (buf.length : Int) ∧
    (SysCallManager.Write st file buf).trace =
      Event.dispatchWrite file buf ::
        st.platform_newlib.write.map (fun w => Event.writerCall w file buf (w file buf)) ∧
    (newlibWrite nst nfile nbuf).ret = (nbuf.length : Int) ∧
    (newlibWrite nst nfile nbuf).trace =
      Event.dispatchWrite nfile nbuf ::
        nst.platform_newlib.write.map (fun w => Event.writerCall w nfile nbuf (w nfile nbuf)) := by
  refine ⟨rfl, ?_, rfl, ?_⟩ <;>
    simp [SysCallManager.Write, newlibWrite, writeEvents_eq_map]

/-- C3: for a registry constructed with capacity callback_count,
AddWriter and AddReader append to the respective sequence while fewer
than callback_count handlers are registered in total, and registering
beyond that raises AllocationExhausted (std::bad_alloc) while leaving the
already-registered handlers unchanged. -/
theorem register_capacity_atomic (s : StaticSysCall) (f : write_function)
    (g : read_function) :
    (s.write.length + s.read.length < s.callback_count →
       s.AddWriter f = ({ s with write := s.write ++ [f] }, AllocResult.ok) ∧
       s.AddReader g = ({ s with read := s.read ++ [g] }, AllocResult.ok)) ∧
    (s.callback_count ≤ s.write.length + s.read.length →
       s.AddWriter f = (s, AllocResult.allocationExhausted) ∧
       s.AddReader g = (s, AllocResult.allocationExhausted)) := by
  constructor
  · intro h
    exact ⟨by simp [StaticSysCall.AddWriter, h], by simp [StaticSysCall.AddReader, h]⟩
  · intro h
    have h2 : ¬ s.write.length + s.read.length < s.callback_count := by omega
    exact ⟨by simp [StaticSysCall.AddWriter, h2], by simp [StaticSysCall.AddReader, h2]⟩

/-- Witness for C3: a registry with one of two slots taken accepts a new
writer, and a registry whose single slot is taken rejects both a writer
and a reader, unchanged. -/
theorem register_capacity_atomic_witness :
    demoRegistry.AddWriter sinkWriter =
      ({ demoRegistry with write := demoRegistry.write ++ [sinkWriter] }, AllocResult.ok) ∧
    fullRegistry.AddWriter sinkWriter = (fullRegistry, AllocResult.allocationExhausted) ∧
    fullRegistry.AddReader zeroReader = (fullRegistry, AllocResult.allocationExhausted) :=
  ⟨((register_capacity_atomic demoRegistry sinkWriter zeroReader).1 (by decide)).1,
   ((register_capacity_atomic fullRegistry sinkWriter zeroReader).2 (by decide)).1,
   ((register_capacity_atomic fullRegistry sinkWriter zeroReader).2 (by decide)).2⟩

/-- C7: with the default registry active (no platform registry
installed), Write returns the full length with no state change and, on
the syscall side, no writer invocation at all; Read always reports 0
bytes and leaves the destination buffer untouched. Covers the initial
states of both SysCallManager and NewlibManager. -/
theorem default_registry_inert (file nfile : Int) (buf dest ndest : List Int)
    (bufCap : Nat) (hp he : Int) :
    (SysCallManager.Write (SysCallManagerState.init bufCap) file buf).ret = (buf.length : Int) ∧
    (SysCallManager.Write (SysCallManagerState.init bufCap) file buf).state =
      SysCallManagerState.init bufCap ∧
    (SysCallManager.Write (SysCallManagerState.init bufCap) file buf).trace =
      [Event.dispatchWrite file buf] ∧
    (SysCallManager.Read (SysCallManagerState.init bufCap) file dest).ret = 0 ∧
    (SysCallManager.Read (SysCallManagerState.init bufCap) file dest).dest = dest ∧
    (newlibWrite (NewlibManagerState.init hp he) nfile buf).ret = (buf.length : Int) ∧
    (newlibWrite (NewlibManagerState.init hp he) nfile buf).state =
      NewlibManagerState.init hp he ∧
    (newlibRead (NewlibManagerState.init hp he) nfile ndest).ret = 0 ∧
    (newlibRead (NewlibManagerState.init hp he) nfile ndest).dest = ndest := by
  refine ⟨rfl, rfl, ?_, ?_, ?_, rfl, rfl, ?_, ?_⟩ <;>
    simp [SysCallManager.Write, SysCallManager.Read, newlibWrite, newlibRead,
      SysCallManagerState.init, NewlibManagerState.init, DefaultNewlib, default_newlib,
      readRun, writeEvents]

/-- C10: Write, Read and GetChar leave the whole manager state - in
particular the registered writer and reader sequences and the installed
registry pointer - exactly as it was, on both the syscall and the newlib
side; Flush and PutChar, which do mutate the stream buffer, still leave
the installed registry untouched. -/
theorem io_calls_frame (st : SysCallManagerState) (nst : NewlibManagerState)
    (file nfile c : Int) (buf dest ndest : List Int) :
    (SysCallManager.Write st file buf).state = st ∧
    (SysCallManager.Read st file dest).state = st ∧
    (SysCallManager.GetChar st file).state = st ∧
    (newlibWrite nst nfile buf).state = nst ∧
    (newlibRead nst nfile ndest).state = nst ∧
    (SysCallManager.Flush st file).state.platform_newlib = st.platform_newlib ∧
    (SysCallManager.PutChar st c file).state.platform_newlib = st.platform_newlib :=
  ⟨rfl, rfl, rfl, rfl, rfl, rfl, PutChar_state_platform st c file⟩

/-- C2: Read tries the registered readers in registration order; the
first reader reporting a positive count wins: its count is returned, its
destination-buffer output is what Read leaves behind, and the readers
after it are never invoked; when every registered reader reports count 0
along the run, Read returns 0. -/
theorem read_first_success (st : SysCallManagerState) (file : Int) (dest : List Int) :
    (∀ (rs1 : List read_function) (r : read_function) (rs2 : List read_function),
       st.platform_newlib.read = rs1 ++ r :: rs2 →
       AllZeroChain file rs1 dest →
       0 < (r file (chainDest file rs1 dest)).1 →
       (SysCallManager.Read st file dest).ret = (r file (chainDest file rs1 dest)).1 ∧
       (SysCallManager.Read st file dest).dest = (r file (chainDest file rs1 dest)).2 ∧
       (SysCallManager.Read st file dest).trace =
         readEvents file rs1 dest ++
           [Event.readerCall r file (chainDest file rs1 dest)
             (r file (chainDest file rs1 dest)).1]) ∧
    (AllZeroChain file st.platform_newlib.read dest →
       (SysCallManager.Read st file dest).ret = 0) := by
  constructor
  · intro rs1 r rs2 hsplit hzero hpos
    have h := readRun_firstSuccess file hzero r rs2 hpos
    simp [SysCallManager.Read, hsplit, h]
  · intro hzero
    have h := readRun_allZeroChain file hzero
    simp [SysCallManager.Read, h]

/-- Witness for C2: with a no-data reader followed by a reader producing
the single byte 65, Read returns 1 and leaves 65 in the buffer; with a
single no-data reader, Read returns 0. -/
theorem read_first_success_witness :
    (SysCallManager.Read readDemoState 0 [0]).ret = 1 ∧
    (SysCallManager.Read readDemoState 0 [0]).dest = [65] ∧
    (SysCallManager.Read zeroReadState 0 [0]).ret = 0 := by
  have h := (read_first_success readDemoState 0 [0]).1 [zeroReader] letterAReader [] rfl
    (AllZeroChain.cons zeroReader [] [0] rfl (AllZeroChain.nil _)) (by decide)
  have h0 := (read_first_success zeroReadState 0 [0]).2
    (AllZeroChain.cons zeroReader [] [0] rfl (AllZeroChain.nil _))
  exact ⟨h.1, h.2.1, h0⟩

/-- Counterexample for C4: from an empty buffer with capacity 2 and an
installed writer, exactly 2 PutChar calls of non-newline bytes trigger no
flush at all - the capacity check runs before the byte is appended, so
both bytes merely sit in the buffer and the claimed single boundary flush
does not happen. -/
theorem putchar_capacity_counterexample :
    countDispatchWrite (putString (demoStreamState 2) 0 [97, 98]).2 = 0 ∧
    (putString (demoStreamState 2) 0 [97, 98]).1.buffer = [97, 98] := by
  constructor <;> rfl

/-- C4 amended: starting from an empty buffer, exactly capacity PutChar
calls with non-newline bytes trigger no flush and leave all capacity
bytes buffered in order; the single flush happens at the start of the
next non-newline PutChar, delivering exactly the capacity buffered bytes,
in order, to every installed writer, after which only the new byte is
buffered. -/
theorem putchar_capacity_boundary_flush (st : SysCallManagerState) (file c : Int)
    (s : List Int) (hbuf : st.buffer = []) (hlen : s.length = st.bufCapacity)
    (hnl : ∀ x ∈ s, x ≠ 10) (hc : c ≠ 10) :
    putString st file s = ({ st with buffer := s }, []) ∧
    (SysCallManager.PutChar { st with buffer := s } c file).trace =
      Event.dispatchWrite file s :: writeEvents file s st.platform_newlib.write ∧
    (SysCallManager.PutChar { st with buffer := s } c file).state =
      { st with buffer := [c] } ∧
    countDispatchWrite (SysCallManager.PutChar { st with buffer := s } c file).trace = 1 := by
  have h1 := putString_no_flush file s st (by simp [hbuf, hlen]) hnl
  rw [hbuf] at h1
  refine ⟨by simpa using h1, ?_, ?_, ?_⟩ <;>
    simp [SysCallManager.PutChar, SysCallManager.Flush, SysCallManager.Write, hlen, hc,
      countDispatchWrite_cons_dispatch, countDispatchWrite_writeEvents]

/-- Witness for the amended C4: capacity 2, bytes 97 and 98 buffered
without a flush, then PutChar of 99 flushes exactly those two bytes to
the installed writer and leaves 99 buffered. -/
theorem putchar_capacity_boundary_flush_witness :
    putString (demoStreamState 2) 0 [97, 98] =
      ({ demoStreamState 2 with buffer := [97, 98] }, []) ∧
    (SysCallManager.PutChar { demoStreamState 2 with buffer := [97, 98] } 99 0).trace =
      Event.dispatchWrite 0 [97, 98] :: writeEvents 0 [97, 98] [sinkWriter] ∧
    countDispatchWrite
      (SysCallManager.PutChar { demoStreamState 2 with buffer := [97, 98] } 99 0).trace = 1 := by
  have h := putchar_capacity_boundary_flush (demoStreamState 2) 0 99 [97, 98] rfl rfl
    (by decide) (by decide)
  exact ⟨h.1, h.2.1, h.2.2.2⟩

/-- C5: for every sequence of PutChar and Flush operations started from a
state respecting the capacity bound, with a capacity of at least one byte
(as BUFSIZ is), the buffer length never exceeds the fixed capacity; and
immediately after every Flush - including the flush triggered by PutChar
of a newline byte even when the buffer is not full - the buffer length
is 0. -/
theorem buffered_stream_invariant (st : SysCallManagerState) (c file : Int)
    (ops : List StreamOp) (hcap : 1 ≤ st.bufCapacity)
    (hlen : st.buffer.length ≤ st.bufCapacity) :
    (SysCallManager.PutChar st c file).state.buffer.length ≤ st.bufCapacity ∧
    (SysCallManager.Flush st file).state.buffer.length = 0 ∧
    (SysCallManager.PutChar st 10 file).state.buffer.length = 0 ∧
    (∀ st' ∈ runStates st file ops, st'.buffer.length ≤ st.bufCapacity) :=
  ⟨PutChar_len_le st c file hcap hlen,
   by simp [Flush_state_buffer],
   PutChar_newline_len st file,
   runStates_inv file ops st hcap hlen⟩

/-- Witness for C5 at capacity 2 with a concrete operation sequence. -/
theorem buffered_stream_invariant_witness :
    (SysCallManager.PutChar (demoStreamState 2) 97 0).state.buffer.length ≤ 2 ∧
    (SysCallManager.PutChar (demoStreamState 2) 10 0).state.buffer.length = 0 ∧
    (∀ st' ∈ runStates (demoStreamState 2) 0 [StreamOp.put 97, StreamOp.flush],
       st'.buffer.length ≤ 2) := by
  have h := buffered_stream_invariant (demoStreamState 2) 97 0
    [StreamOp.put 97, StreamOp.flush] (by decide) (by decide)
  exact ⟨h.1, h.2.2.1, h.2.2.2⟩

/-- Counterexample for C6: with an installed writer and an already-empty
buffer, the second of two back-to-back Flush calls still issues a Write
call to the dispatch facade (with a zero-length buffer), rather than
issuing none. -/
theorem flush_twice_counterexample :
    countDispatchWrite
      (SysCallManager.Flush (SysCallManager.Flush (demoStreamState 2) 0).state 0).trace = 1 ∧
    (SysCallManager.Flush (demoStreamState 2) 0).state.buffer = [] := by
  constructor <;> rfl

/-- C6 amended: a Flush on an already-empty buffer leaves the buffer at
length 0 and the whole state unchanged, but is not silent: it issues
exactly one Write call to the dispatch facade, with a zero-length buffer,
invoking every registered writer once with zero bytes. -/
theorem flush_on_empty_buffer (st : SysCallManagerState) (file : Int)
    (hbuf : st.buffer = []) :
    (SysCallManager.Flush st file).ret = 0 ∧
    (SysCallManager.Flush st file).state = st ∧
    (SysCallManager.Flush st file).trace =
      Event.dispatchWrite file [] :: writeEvents file [] st.platform_newlib.write ∧
    countDispatchWrite (SysCallManager.Flush st file).trace = 1 := by
  refine ⟨rfl, ?_, ?_, ?_⟩
  · cases st
    simp_all [SysCallManager.Flush, SysCallManager.Write]
  · simp [SysCallManager.Flush, SysCallManager.Write, hbuf]
  · simp [SysCallManager.Flush, SysCallManager.Write, hbuf,
      countDispatchWrite_cons_dispatch, countDispatchWrite_writeEvents]

/-- Witness for the amended C6 at a concrete state with one writer. -/
theorem flush_on_empty_buffer_witness :
    (SysCallManager.Flush (demoStreamState 2) 0).state = demoStreamState 2 ∧
    countDispatchWrite (SysCallManager.Flush (demoStreamState 2) 0).trace = 1 := by
  have h := flush_on_empty_buffer (demoStreamState 2) 0 rfl
  exact ⟨h.2.1, h.2.2.2⟩

/-- C8: the _sbrk hook returns null exactly when no installed allocator
can satisfy the request - every registered allocator returns null and the
linker heap region cannot absorb the increment; when an allocator in the
registered sequence is the first to return non-null, its result is
returned; when only the heap fallback can satisfy the request, the
current heap position is returned. -/
theorem sbrk_null_or_first (st : NewlibManagerState) (inc : Int) :
    ((∀ a ∈ st.platform_newlib.sbrk, a inc = none) →
       ¬ (st.heap_position + inc ≤ st.heap_end) →
       (newlibSbrk st inc).1 = none) ∧
    (∀ (as1 : List sbrk_function) (a : sbrk_function) (as2 : List sbrk_function) (p : Int),
       st.platform_newlib.sbrk = as1 ++ a :: as2 →
       (∀ b ∈ as1, b inc = none) → a inc = some p →
       (newlibSbrk st inc).1 = some p) ∧
    ((∀ a ∈ st.platform_newlib.sbrk, a inc = none) →
       st.heap_position + inc ≤ st.heap_end →
       (newlibSbrk st inc).1 = some st.heap_position) := by
  refine ⟨?_, ?_, ?_⟩
  · intro hall hheap
    simp [newlibSbrk, sbrkLoop_eq_none inc hall, hheap]
  · intro as1 a as2 p hsplit h1 ha
    simp [newlibSbrk, hsplit, sbrkLoop_firstSuccess inc as1 a as2 p h1 ha]
  · intro hall hheap
    simp [newlibSbrk, sbrkLoop_eq_none inc hall, hheap]

/-- Witness for C8: the second registered allocator satisfies the
request and its address is returned; with only a failing allocator and an
exhausted heap region, null is returned. -/
theorem sbrk_null_or_first_witness :
    (newlibSbrk sbrkDemoState 8).1 = some 4096 ∧
    (newlibSbrk sbrkEmptyState 8).1 = none := by
  constructor
  · exact (sbrk_null_or_first sbrkDemoState 8).2.1 [nullAllocator] fixedAllocator [] 4096 rfl
      (by intro b hb; rw [List.mem_singleton] at hb; subst hb; rfl) rfl
  · exact (sbrk_null_or_first sbrkEmptyState 8).1
      (by intro a ha
          simp only [sbrkEmptyState, List.mem_singleton] at ha
          subst ha
          rfl)
      (by decide)

/-- C9: _exit reports a non-negative return code as a normal termination
and a negative one as an abnormal termination; in both cases the pending
uncaught fault is then reported, classified as a typed domain fault, a
generic runtime fault, or an unknown fault; and the control flow of the
hook body never reaches the return location: after any number of steps it
stays in the reporting phases or the idle loop. -/
theorem exit_reports_and_never_returns (code : Int) (pending : Option Fault)
    (m : List Int) :
    (0 ≤ code →
       exitEvents code pending =
         ExitEvent.exitCodeNormal code :: HandleExceptionPointer pending) ∧
    (code < 0 →
       exitEvents code pending =
         ExitEvent.exitCodeAbnormal code :: HandleExceptionPointer pending) ∧
    HandleExceptionPointer (some (Fault.sjsuException m)) =
      [ExitEvent.uncaughtHeader, ExitEvent.faultTyped m] ∧
    HandleExceptionPointer (some (Fault.stdException m)) =
      [ExitEvent.uncaughtHeader, ExitEvent.faultGeneric m] ∧
    HandleExceptionPointer (some Fault.unknown) =
      [ExitEvent.uncaughtHeader, ExitEvent.faultUnknown] ∧
    (∀ n : Nat, exitStep^[n] ExitPC.reportCode ≠ ExitPC.returned) := by
  refine ⟨?_, ?_, rfl, rfl, rfl, ?_⟩
  · intro h
    simp [exitEvents, h]
  · intro h
    have h2 : ¬ 0 ≤ code := by omega
    simp [exitEvents, h2]
  · intro n
    exact iterate_exitStep_ne_returned n ExitPC.reportCode (by decide)

/-- Witness for C9 at exit codes 3 and minus 2. -/
theorem exit_reports_and_never_returns_witness :
    exitEvents 3 (some Fault.unknown) =
      [ExitEvent.exitCodeNormal 3, ExitEvent.uncaughtHeader, ExitEvent.faultUnknown] ∧
    exitEvents (-2) none =
      [ExitEvent.exitCodeAbnormal (-2), ExitEvent.uncaughtHeader] ∧
    exitStep^[5] ExitPC.reportCode ≠ ExitPC.returned := by
  refine ⟨?_, ?_, ?_⟩
  · have h := (exit_reports_and_never_returns 3 (some Fault.unknown) []).1 (by decide)
    simpa [HandleExceptionPointer] using h
  · have h := (exit_reports_and_never_returns (-2) none []).2.1 (by decide)
    simpa [HandleExceptionPointer] using h
  · exact (exit_reports_and_never_returns 0 none []).2.2.2.2.2 5

end LibCore
